import Mathlib

/-!
Shallow embedding of the "Really Nice IRL" persistence layer (base.py) and
application shell (rn_irl.py).  Database tables are modelled as lists of
records inside a `DB` state; every operation is a pure function from its
inputs and a `DB` to its outputs and the successor `DB`.  Wall-clock dates
("today") and the bcrypt primitives are passed in explicitly as parameters,
since they are ambient effects in the source.
-/

namespace RnIrl

/-- Rows of the "IRL Data" table (class IRLAssessment in base.py). -/
structure IRLAssessment where
  id : Nat
  project_no : Int
  project_name : String
  project_leader_id : Nat
  project_description : String
  assessment_date : String
  project_notes : Option String
  crl : Int
  trl : Int
  brl : Int
  iprl : Int
  tmrl : Int
  frl : Int
  crl_notes : Option String
  trl_notes : Option String
  brl_notes : Option String
  iprl_notes : Option String
  tmrl_notes : Option String
  frl_notes : Option String
  crl_target : Int
  trl_target : Int
  brl_target : Int
  iprl_target : Int
  tmrl_target : Int
  frl_target : Int
  crl_target_lead : Option String
  trl_target_lead : Option String
  brl_target_lead : Option String
  iprl_target_lead : Option String
  tmrl_target_lead : Option String
  frl_target_lead : Option String
  crl_target_duedate : Option String
  trl_target_duedate : Option String
  brl_target_duedate : Option String
  iprl_target_duedate : Option String
  tmrl_target_duedate : Option String
  frl_target_duedate : Option String
  plot_targets : Int
  active : Int
deriving Repr, DecidableEq

/-- Rows of the "Users" table (class User in base.py). -/
structure User where
  user_id : Nat
  actual_name : String
  username : String
  password : Option String
  rights : Int
  active : Int
  org_id : Nat
  fac_id : Nat
  dep_id : Nat
deriving Repr, DecidableEq

/-- Rows of the "User Settings" table (class UserSettings in base.py). -/
structure UserSettings where
  id : Nat
  user_id : Nat
  smooth_irl : Int
  filter_on_user : Int
  remember_project : Int
  last_project_no : Option Int
  ascending_irl : Int
  ap_table_view : Int
  dark_mode : Int
deriving Repr, DecidableEq

/-- Rows of the "Project Teams" table (class ProjectTeam in base.py). -/
structure ProjectTeam where
  id : Nat
  project_id : Int
  user_id : Nat
  project_rights : Int
  active : Int
deriving Repr, DecidableEq

/-- Rows of the "Action Points" table (class ActionPoint in base.py). -/
structure ActionPoint where
  ap_id : Nat
  assessment_id : Nat
  irl_type : String
  action_point : String
  responsible : Option Nat
  due_date : Option String
  progress : Int
  comment : String
deriving Repr, DecidableEq

/-- The relational-store state: one list per table touched by the claims,
plus autoincrement counters for the surrogate keys the store generates. -/
structure DB where
  assessments : List IRLAssessment
  users : List User
  userSettings : List UserSettings
  projectTeams : List ProjectTeam
  actionPoints : List ActionPoint
  nextAssId : Nat
  nextUserId : Nat
  nextSettingsId : Nat
deriving Repr, DecidableEq

/-- IRLAssessment.insert (base.py lines 250-275).  First stamps
`self.assessment_date` with today's date, then checks whether any stored row
(regardless of `active`) carries the same project_no; on a hit it returns
the duplicate-project error and writes nothing, otherwise it adds the row
(the store assigning the fresh surrogate id, which SQLAlchemy writes back
into the in-memory object on commit).  The returned triple is the
in-memory object after the call, the successor store, and the error. -/
def IRLAssessment.insert (a : IRLAssessment) (today : String) (db : DB) :
    IRLAssessment × DB × Option String :=
  let a' := { a with assessment_date := today }
  let dup := db.assessments.any (fun r => r.project_no == a'.project_no)
  if dup then
    (a', db, some "Project already exists in the database!")
  else
    let row := { a' with id := db.nextAssId }
    (row,
     { db with assessments := db.assessments ++ [row],
               nextAssId := db.nextAssId + 1 },
     none)

/-- IRLAssessment.update (base.py lines 277-366).  When `overwrite` is set
or today equals the stored assessment_date, every mapped column of every
row whose id equals `a.id` is set from `a` (the reflection loop over
`InstrumentedAttribute` columns builds the full column payload).  Otherwise
a fresh row is constructed copying exactly the fields the source copies,
dated today, with the per-scale notes and project_notes carried over only
under `keep_ass_notes` (a fresh ORM object leaves them NULL otherwise). -/
def IRLAssessment.update (a : IRLAssessment) (overwrite keep_ass_notes : Bool)
    (today : String) (db : DB) : DB × Option String :=
  if overwrite || today == a.assessment_date then
    ({ db with assessments :=
         db.assessments.map (fun r => if r.id == a.id then a else r) },
     none)
  else
    let new_irl : IRLAssessment :=
      { id := db.nextAssId
        project_no := a.project_no
        project_name := a.project_name
        project_leader_id := a.project_leader_id
        project_description := a.project_description
        assessment_date := today
        project_notes := if keep_ass_notes then a.project_notes else none
        crl := a.crl
        trl := a.trl
        brl := a.brl
        iprl := a.iprl
        tmrl := a.tmrl
        frl := a.frl
        crl_notes := if keep_ass_notes then a.crl_notes else none
        trl_notes := if keep_ass_notes then a.trl_notes else none
        brl_notes := if keep_ass_notes then a.brl_notes else none
        iprl_notes := if keep_ass_notes then a.iprl_notes else none
        tmrl_notes := if keep_ass_notes then a.tmrl_notes else none
        frl_notes := if keep_ass_notes then a.frl_notes else none
        crl_target := a.crl_target
        trl_target := a.trl_target
        brl_target := a.brl_target
        iprl_target := a.iprl_target
        tmrl_target := a.tmrl_target
        frl_target := a.frl_target
        crl_target_lead := a.crl_target_lead
        trl_target_lead := a.trl_target_lead
        brl_target_lead := a.brl_target_lead
        iprl_target_lead := a.iprl_target_lead
        tmrl_target_lead := a.tmrl_target_lead
        frl_target_lead := a.frl_target_lead
        crl_target_duedate := a.crl_target_duedate
        trl_target_duedate := a.trl_target_duedate
        brl_target_duedate := a.brl_target_duedate
        iprl_target_duedate := a.iprl_target_duedate
        tmrl_target_duedate := a.tmrl_target_duedate
        frl_target_duedate := a.frl_target_duedate
        plot_targets := a.plot_targets
        active := a.active }
    ({ db with assessments := db.assessments ++ [new_irl],
               nextAssId := db.nextAssId + 1 },
     none)

/-- get_irl (base.py lines 729-741): first stored assessment row with the
given id, or nothing. -/
def get_irl (irl_ass_id : Nat) (db : DB) : Option IRLAssessment :=
  db.assessments.find? (fun a => a.id == irl_ass_id)

/-- SQL SUM over the `progress` column of a list of action points. -/
def sumProgress (aps : List ActionPoint) : Int :=
  aps.foldl (fun s ap => s + ap.progress) 0

/-- ap_completed (base.py lines 2047-2085).  Looks up the assessment (the
source dereferences it unconditionally, so a missing id is outside the
function's domain and modelled as `none`); returns true when the stored
date is today, and otherwise when the progress sum equals 100 times the
action-point count or there are no action points. -/
def ap_completed (irl_ass_id : Nat) (today : String) (db : DB) : Option Bool :=
  (get_irl irl_ass_id db).map (fun irl =>
    if today == irl.assessment_date then
      true
    else
      let aps := db.actionPoints.filter (fun ap => ap.assessment_id == irl_ass_id)
      ((aps.length : Int) * 100 == sumProgress aps) || aps.length == 0)

/-- One iteration of the delete_assessments loop (base.py lines 812-822):
query the action points of one assessment id, delete the rows whose ap_id
is in that queried id set, and record whether the deleted-row count matched
the queried count.  The accumulator carries the surviving action-point
rows and the running success flag. -/
def delete_aps_step (acc : List ActionPoint × Bool) (aid : Nat) :
    List ActionPoint × Bool :=
  let aps := acc.1.filter (fun ap => ap.assessment_id == aid)
  let apIds := aps.map (fun ap => ap.ap_id)
  let ap_dc := acc.1.countP (fun ap => apIds.contains ap.ap_id)
  let remaining := acc.1.filter (fun ap => !(apIds.contains ap.ap_id))
  (remaining, acc.2 && (ap_dc == apIds.length))

/-- delete_assessments (base.py lines 791-832).  Walks the given assessment
objects deleting each one's action points (with a per-assessment count
check), then deletes the assessment rows whose id is in the collected id
list, commits once, and finally compares the assessment deleted-row count
with the length of the id list.  The commit is unconditional: the returned
store reflects every deletion whether or not the flag is true. -/
def delete_assessments (irl_asses : List IRLAssessment) (db : DB) : DB × Bool :=
  let ids := irl_asses.map (fun a => a.id)
  let res := ids.foldl delete_aps_step (db.actionPoints, true)
  let irl_ass_dc := db.assessments.countP (fun a => ids.contains a.id)
  let remainingAss := db.assessments.filter (fun a => !(ids.contains a.id))
  ({ db with assessments := remainingAss, actionPoints := res.1 },
   res.2 && (irl_ass_dc == ids.length))

/-- get_users (base.py lines 1029-1066): active flag coerced to int, with an
optional organisation filter. -/
def get_users (active : Bool) (org_id : Option Nat) (db : DB) : List User :=
  let act : Int := if active then 1 else 0
  match org_id with
  | none => db.users.filter (fun u => u.active == act)
  | some o => db.users.filter (fun u => u.active == act && u.org_id == o)

/-- add_user (base.py lines 973-1026).  Hashes the password with a fresh
bcrypt salt (both primitives passed in), bails out returning nothing if the
username is already taken, and otherwise stores the user and a paired
UserSettings row with the hard-coded defaults, returning the stored user
(re-queried by username, hence carrying the generated user_id). -/
def add_user (hashpw : String → String → String) (salt : String)
    (new_user : User) (password : String) (db : DB) : DB × Option User :=
  let hashed_password := hashpw password salt
  let taken := db.users.any (fun u => u.username == new_user.username)
  if taken then
    (db, none)
  else
    let stored := { new_user with password := some hashed_password,
                                  user_id := db.nextUserId }
    let new_user_settings : UserSettings :=
      { id := db.nextSettingsId
        user_id := stored.user_id
        smooth_irl := 1
        filter_on_user := 1
        remember_project := 1
        last_project_no := none
        ascending_irl := 1
        ap_table_view := 0
        dark_mode := 1 }
    ({ db with users := db.users ++ [stored],
               userSettings := db.userSettings ++ [new_user_settings],
               nextUserId := db.nextUserId + 1,
               nextSettingsId := db.nextSettingsId + 1 },
     some stored)

/-- validate_user (base.py lines 1163-1196).  The source computes
`db_user and bcrypt.checkpw(password, db_user.password.encode('utf-8'))`:
when no row matches the username the conjunction short-circuits and the
function returns nothing; when a row matches but its password column is
NULL, `None.encode` raises AttributeError before bcrypt runs, modelled as
`Except.error`; otherwise bcrypt decides between the user and nothing. -/
def validate_user (checkpw : String → String → Bool)
    (username password : String) (db : DB) : Except String (Option User) :=
  match db.users.find? (fun u => u.username == username) with
  | none => .ok none
  | some db_user =>
    match db_user.password with
    | none => .error "AttributeError: NoneType object has no attribute encode"
    | some hp => if checkpw password hp then .ok (some db_user) else .ok none

/-- Pages registered by the application shell (rn_irl.py lines 23-55). -/
inductive Page where
  | admin_tools
  | intro
  | irl_ass
  | login
  | logout
  | portfolio
  | project_tools
  | reporting
  | sys_settings
  | user_manual
  | user_settings
deriving Repr, DecidableEq

/-- get_tools_n_settings (rn_irl.py lines 59-88): the role-based extra-page
chain; a rights value matching no branch falls off the end of the Python
function and yields None. -/
def get_tools_n_settings (user : User) : Option (List Page) :=
  if user.rights < 2 then
    some [.user_settings]
  else if user.rights == 2 then
    some [.project_tools, .reporting, .user_settings]
  else if user.rights == 6 then
    some [.user_settings]
  else if user.rights == 7 then
    some [.user_settings]
  else if user.rights == 8 then
    some [.project_tools, .reporting, .user_settings]
  else if user.rights == 9 then
    some [.project_tools, .reporting, .admin_tools, .user_settings, .sys_settings]
  else
    none

/-- Column names of User.to_dict(), in declaration order (base.py lines
386-394); also the literal key list of the no-responsible-user fallback
dict in get_action_points (base.py lines 2008-2018). -/
def user_dict_keys : List String :=
  ["user_id", "actual_name", "username", "password", "rights", "active",
   "org_id", "fac_id", "dep_id"]

/-- Column names of ActionPoint.to_dict(), in declaration order (base.py
lines 644-651). -/
def action_point_dict_keys : List String :=
  ["ap_id", "assessment_id", "irl_type", "action_point", "responsible",
   "due_date", "progress", "comment"]

/-- The literal column list installed by get_action_points when no action
point matched (base.py lines 2038-2041). -/
def empty_ap_df_columns : List String :=
  ["user_id", "actual_name", "username", "password", "rights", "active",
   "org_id", "fac_id", "dep_id", "id", "assessment_id", "irl_type",
   "action_point", "responsible", "due_date", "progress", "comment",
   "aps", "user_obj"]

/-- Column layout of the DataFrame built by get_action_points (base.py
lines 1954-2044).  Each row dict is the responsible-user dict updated with
the action point's own dict (key sets disjoint, so the merged key order is
user keys then action-point keys); when at least one row exists the `aps`,
`user_obj` columns are appended (`due_date` is overwritten in place, adding
no column); when no row exists the literal fallback column list is used. -/
def get_action_points_columns (irl_ass_id : Nat) (irl_type : Option String)
    (db : DB) : List String :=
  let aps : List ActionPoint := match irl_type with
    | none => db.actionPoints.filter (fun ap => ap.assessment_id == irl_ass_id)
    | some t => db.actionPoints.filter
        (fun ap => ap.assessment_id == irl_ass_id && ap.irl_type == t)
  if aps.isEmpty then
    empty_ap_df_columns
  else
    user_dict_keys ++ action_point_dict_keys ++ ["aps", "user_obj"]

/-- Distinct project numbers of a row list, first occurrence first. -/
def dedupNos : List Int → List Int
  | [] => []
  | n :: ns => n :: dedupNos (ns.filter (fun m => !(m == n)))
termination_by l => l.length
decreasing_by
  simp_wf
  exact Nat.lt_succ_of_le (List.length_filter_le _ _)

/-- Row with the maximum assessment_date (ISO date strings compare
chronologically); the first row attaining the maximum wins ties, matching
an arbitrary-but-fixed choice of the SQL bare-column row. -/
def maxByDate : List IRLAssessment → Option IRLAssessment
  | [] => none
  | a :: rest =>
    match maxByDate rest with
    | none => some a
    | some b => if b.assessment_date ≤ a.assessment_date then some a else some b

/-- The GROUP BY project_no query shape of get_projects: one row per
project_no occurring in the input, namely the row of that group with the
maximum assessment_date (SQLite's bare-column-with-max semantics). -/
def group_latest (rows : List IRLAssessment) : List IRLAssessment :=
  (dedupNos (rows.map (fun a => a.project_no))).filterMap
    (fun pn => maxByDate (rows.filter (fun a => a.project_no == pn)))

/-- The join condition of the rights ≤ 3 branch of get_projects (base.py
lines 1540-1548): some ProjectTeam row makes the calling user an active
member of the project. -/
def team_ok (db : DB) (uid : Nat) (pn : Int) : Bool :=
  db.projectTeams.any (fun pt =>
    pt.user_id == uid && pt.active == 1 && pn == pt.project_id)

/-- get_projects (base.py lines 1469-1563).  Fetches, per project_no, the
max-date assessment row among rows matching the requested active flag,
then narrows by role exactly as the source's elif chain does. -/
def get_projects (user : User) (filt active : Bool) (db : DB) :
    List IRLAssessment :=
  let act : Int := if active then 1 else 0
  let irl_data := group_latest (db.assessments.filter (fun a => a.active == act))
  if user.rights == 9 && filt then
    irl_data.filter (fun p => p.project_leader_id == user.user_id)
  else if user.rights == 8 then
    let user_ids := (get_users true (some user.org_id) db).map (fun u => u.user_id)
    if filt then
      irl_data.filter (fun p => p.project_leader_id == user.user_id)
    else
      irl_data.filter (fun p => user_ids.contains p.project_leader_id)
  else if user.rights ≤ 3 then
    let team_data := group_latest (db.assessments.filter (fun a =>
      a.active == act && team_ok db user.user_id a.project_no))
    if filt then
      team_data.filter (fun p => p.project_leader_id == user.user_id)
    else
      team_data
  else
    irl_data

/-- Claim-side restatement of the get_projects contract, written from the
claim's own words for comparison with the source translation: group to the
latest active-matching row per project_no, then narrow by role — rights 9
with filt keeps only projects the user leads; rights 8 keeps projects the
user leads (filt) or projects led by some active user of the same
organisation (not filt); rights at most 3 keeps projects on which the user
is an active ProjectTeam member, and additionally the leader when filt;
any other rights value keeps the unfiltered grouped list. -/
def get_projects_claimed (user : User) (filt active : Bool) (db : DB) :
    List IRLAssessment :=
  let act : Int := if active then 1 else 0
  let grouped := group_latest (db.assessments.filter (fun a => a.active == act))
  if user.rights == 9 && filt then
    grouped.filter (fun p => p.project_leader_id == user.user_id)
  else if user.rights == 8 then
    if filt then
      grouped.filter (fun p => p.project_leader_id == user.user_id)
    else
      grouped.filter (fun p => db.users.any (fun u =>
        u.active == 1 && u.org_id == user.org_id && u.user_id == p.project_leader_id))
  else if user.rights ≤ 3 then
    let team := grouped.filter (fun p => team_ok db user.user_id p.project_no)
    if filt then
      team.filter (fun p => p.project_leader_id == user.user_id)
    else
      team
  else
    grouped

/-- Claim-side restatement of the role→extra-pages table of C8, following
the claim's grouping of the rows: rights below 2, equal to 6 or equal to 7
yield only User Settings; 2 or 8 yield Project Tools, Reports and User
Settings; 9 yields the five-page administrator set; nothing else matches
any branch, so no page list is produced. -/
def extra_pages_claimed (rights : Int) : Option (List Page) :=
  if rights < 2 ∨ rights = 6 ∨ rights = 7 then
    some [.user_settings]
  else if rights = 2 ∨ rights = 8 then
    some [.project_tools, .reporting, .user_settings]
  else if rights = 9 then
    some [.project_tools, .reporting, .admin_tools, .user_settings, .sys_settings]
  else
    none

/-- Concrete assessment row used by witnesses. -/
def exAss : IRLAssessment :=
  { id := 1, project_no := 100, project_name := "P", project_leader_id := 1,
    project_description := "d", assessment_date := "2026-10-12",
    project_notes := some "pn",
    crl := 1, trl := 2, brl := 3, iprl := 4, tmrl := 5, frl := 6,
    crl_notes := some "cn", trl_notes := none, brl_notes := none,
    iprl_notes := none, tmrl_notes := none, frl_notes := none,
    crl_target := 7, trl_target := 7, brl_target := 7, iprl_target := 7,
    tmrl_target := 7, frl_target := 7,
    crl_target_lead := some "lead", trl_target_lead := none,
    brl_target_lead := none, iprl_target_lead := none,
    tmrl_target_lead := none, frl_target_lead := none,
    crl_target_duedate := some "2026-12-01", trl_target_duedate := none,
    brl_target_duedate := none, iprl_target_duedate := none,
    tmrl_target_duedate := none, frl_target_duedate := none,
    plot_targets := 1, active := 1 }

/-- Concrete user with no password set, used by witnesses. -/
def exUserNoPw : User :=
  { user_id := 1, actual_name := "Alice", username := "alice",
    password := none, rights := 1, active := 1,
    org_id := 1, fac_id := 1, dep_id := 1 }

/-- Concrete action point used by witnesses. -/
def exAp : ActionPoint :=
  { ap_id := 1, assessment_id := 5, irl_type := "CRL", action_point := "do",
    responsible := none, due_date := none, progress := 50, comment := "c" }

/-- Empty concrete store used by witnesses. -/
def exDb0 : DB :=
  { assessments := [], users := [], userSettings := [], projectTeams := [],
    actionPoints := [], nextAssId := 2, nextUserId := 1, nextSettingsId := 1 }

/-- Concrete store holding one assessment row. -/
def exDb1 : DB := { exDb0 with assessments := [exAss] }

/-- Concrete store holding one password-less user. -/
def exDbNoPw : DB := { exDb0 with users := [exUserNoPw] }

/-- Concrete store holding one action point (assessment_id 5). -/
def exDbAp : DB := { exDb0 with actionPoints := [exAp] }

/-- Stale in-memory assessment object whose row is absent from the store. -/
def exAssStale : IRLAssessment := { exAss with id := 99, project_no := 999 }

/-- Concrete store with one assessment row and one attached action point. -/
def exDbDel : DB :=
  { exDb0 with assessments := [exAss],
               actionPoints := [{ exAp with assessment_id := 1 }] }

/-- C3: IRLAssessment.insert returns the "Project already exists" error and
writes no row when any stored assessment row (active or not) already
carries the same project_no; when no such row exists it stamps the
assessment with today's date and inserts exactly one new row, returning no
error. -/
theorem insert_duplicate_guard (a : IRLAssessment) (today : String) (db : DB) :
    ((∃ r ∈ db.assessments, r.project_no = a.project_no) →
       (a.insert today db).2.1 = db ∧
       (a.insert today db).2.2 = some "Project already exists in the database!") ∧
    ((∀ r ∈ db.assessments, r.project_no ≠ a.project_no) →
       (a.insert today db).2.1.assessments
         = db.assessments
             ++ [{ a with assessment_date := today, id := db.nextAssId }] ∧
       (a.insert today db).2.2 = none) := by
  constructor
  · intro hdup
    have h : db.assessments.any (fun r => r.project_no == a.project_no) = true := by
      rcases hdup with ⟨r, hr, hpn⟩
      exact List.any_eq_true.mpr ⟨r, hr, by simp [hpn]⟩
    simp [IRLAssessment.insert, h]
  · intro hnone
    have h : db.assessments.any (fun r => r.project_no == a.project_no) = false := by
      rw [List.any_eq_false]
      intro r hr
      simpa using hnone r hr
    simp [IRLAssessment.insert, h]

/-- Witness for C3 at concrete inputs: a duplicate project_no yields the
error and leaves the store untouched, and an empty store accepts the
stamped row. -/
theorem insert_duplicate_guard_witness :
    ((exAss.insert "2026-10-13" exDb1).2.1 = exDb1 ∧
     (exAss.insert "2026-10-13" exDb1).2.2
       = some "Project already exists in the database!") ∧
    ((exAss.insert "2026-10-13" exDb0).2.1.assessments
       = exDb0.assessments
           ++ [{ exAss with assessment_date := "2026-10-13", id := exDb0.nextAssId }] ∧
     (exAss.insert "2026-10-13" exDb0).2.2 = none) :=
  ⟨(insert_duplicate_guard exAss "2026-10-13" exDb1).1
      ⟨exAss, by simp [exDb1, exDb0], rfl⟩,
   (insert_duplicate_guard exAss "2026-10-13" exDb0).2
      (by intro r hr; simp [exDb0] at hr)⟩

/-- C10: a failing insert (duplicate project_no) still mutates the
in-memory object, setting assessment_date to today and leaving every other
field unchanged, while the store itself is untouched. -/
theorem insert_failure_frame (a : IRLAssessment) (today : String) (db : DB)
    (h : ∃ r ∈ db.assessments, r.project_no = a.project_no) :
    (a.insert today db).1 = { a with assessment_date := today } ∧
    (a.insert today db).2.1 = db ∧
    (a.insert today db).2.2
      = some "Project already exists in the database!" := by
  have hb : db.assessments.any (fun r => r.project_no == a.project_no) = true := by
    rcases h with ⟨r, hr, hpn⟩
    exact List.any_eq_true.mpr ⟨r, hr, by simp [hpn]⟩
  simp [IRLAssessment.insert, hb]

/-- Witness for C10 at a concrete duplicate insert. -/
theorem insert_failure_frame_witness :
    (exAss.insert "2026-10-13" exDb1).1
      = { exAss with assessment_date := "2026-10-13" } ∧
    (exAss.insert "2026-10-13" exDb1).2.1 = exDb1 ∧
    (exAss.insert "2026-10-13" exDb1).2.2
      = some "Project already exists in the database!" :=
  insert_failure_frame exAss "2026-10-13" exDb1
    ⟨exAss, by simp [exDb1, exDb0], rfl⟩

/-- C8: get_tools_n_settings returns exactly the extra-page sets of the
spec's role table — User Settings alone for rights below 2 or equal to 6
or 7; Project Tools, Reports and User Settings for 2 or 8; the five-page
administrator set for 9; and no page list at all for any other rights
value, in particular 3, 4 and 5. -/
theorem get_tools_n_settings_matches_table (u : User) :
    get_tools_n_settings u = extra_pages_claimed u.rights := by
  unfold get_tools_n_settings extra_pages_claimed
  simp only [beq_iff_eq]
  split_ifs <;> first | rfl | omega

/-- C4: ap_completed is true exactly when the assessment's stored date is
today, or it has zero action points, or the progress sum equals 100 times
the action-point count; it is defined (some boolean) whenever the
assessment id resolves. -/
theorem ap_completed_spec (irl_ass_id : Nat) (today : String) (db : DB)
    (irl : IRLAssessment) (h : get_irl irl_ass_id db = some irl) :
    (ap_completed irl_ass_id today db = some true ↔
      (irl.assessment_date = today ∨
       db.actionPoints.filter (fun ap => ap.assessment_id == irl_ass_id) = [] ∨
       sumProgress (db.actionPoints.filter (fun ap => ap.assessment_id == irl_ass_id))
         = 100 * ((db.actionPoints.filter
             (fun ap => ap.assessment_id == irl_ass_id)).length : Int))) ∧
    (ap_completed irl_ass_id today db).isSome := by
  unfold ap_completed
  rw [h]
  simp only [Option.map_some', Option.isSome_some, and_true]
  by_cases hd : today = irl.assessment_date
  · simp [hd]
  · have hd2 : (today == irl.assessment_date) = false := by
      simpa using hd
    simp only [hd2, Bool.false_eq_true, if_false, Option.some.injEq]
    constructor
    · intro hh
      rw [Bool.or_eq_true] at hh
      rcases hh with hh1 | hh1
      · right; right
        have h2 := beq_iff_eq.mp hh1
        omega
      · right; left
        have h2 : (db.actionPoints.filter (fun ap => ap.assessment_id == irl_ass_id)).length = 0 := by
          simpa using hh1
        exact List.length_eq_zero.mp h2
    · intro hh
      rcases hh with hh | hh | hh
      · exact absurd hh.symm hd
      · have : (db.actionPoints.filter (fun ap => ap.assessment_id == irl_ass_id)).length = 0 := by
          simp [hh]
        simp [this]
      · have : ((db.actionPoints.filter (fun ap => ap.assessment_id == irl_ass_id)).length : Int) * 100
            = sumProgress (db.actionPoints.filter (fun ap => ap.assessment_id == irl_ass_id)) := by
          omega
        simp [this]

/-- Witness for C4: the single stored assessment (no action points) is
completed. -/
theorem ap_completed_spec_witness :
    (ap_completed 1 "2026-10-13" exDb1 = some true ↔
      (exAss.assessment_date = "2026-10-13" ∨
       exDb1.actionPoints.filter (fun ap => ap.assessment_id == 1) = [] ∨
       sumProgress (exDb1.actionPoints.filter (fun ap => ap.assessment_id == 1))
         = 100 * ((exDb1.actionPoints.filter
             (fun ap => ap.assessment_id == 1)).length : Int))) ∧
    (ap_completed 1 "2026-10-13" exDb1).isSome :=
  ap_completed_spec 1 "2026-10-13" exDb1 exAss rfl

/-- C2: IRLAssessment.update with overwrite set, or when the stored
assessment_date equals today, rewrites the matching row in place (same id,
no new row); otherwise it appends one fresh row with the store's next id,
copying the identity fields, the six current levels, the six targets, the
six target leads, the six target due-dates, plot_targets and active,
dated today, with project_notes and the six per-scale notes carried over
exactly when keep_ass_notes is set. -/
theorem update_spec (a : IRLAssessment) (ow keep : Bool) (today : String)
    (db : DB) :
    ((ow = true ∨ today = a.assessment_date) →
       (a.update ow keep today db).1.assessments
         = db.assessments.map (fun r => if r.id == a.id then a else r)) ∧
    ((ow = false ∧ today ≠ a.assessment_date) →
       ∃ nr,
         (a.update ow keep today db).1.assessments = db.assessments ++ [nr] ∧
         nr.id = db.nextAssId ∧
         nr.project_no = a.project_no ∧
         nr.project_name = a.project_name ∧
         nr.project_leader_id = a.project_leader_id ∧
         nr.project_description = a.project_description ∧
         nr.assessment_date = today ∧
         nr.crl = a.crl ∧ nr.trl = a.trl ∧ nr.brl = a.brl ∧
         nr.iprl = a.iprl ∧ nr.tmrl = a.tmrl ∧ nr.frl = a.frl ∧
         nr.crl_target = a.crl_target ∧ nr.trl_target = a.trl_target ∧
         nr.brl_target = a.brl_target ∧ nr.iprl_target = a.iprl_target ∧
         nr.tmrl_target = a.tmrl_target ∧ nr.frl_target = a.frl_target ∧
         nr.crl_target_lead = a.crl_target_lead ∧
         nr.trl_target_lead = a.trl_target_lead ∧
         nr.brl_target_lead = a.brl_target_lead ∧
         nr.iprl_target_lead = a.iprl_target_lead ∧
         nr.tmrl_target_lead = a.tmrl_target_lead ∧
         nr.frl_target_lead = a.frl_target_lead ∧
         nr.crl_target_duedate = a.crl_target_duedate ∧
         nr.trl_target_duedate = a.trl_target_duedate ∧
         nr.brl_target_duedate = a.brl_target_duedate ∧
         nr.iprl_target_duedate = a.iprl_target_duedate ∧
         nr.tmrl_target_duedate = a.tmrl_target_duedate ∧
         nr.frl_target_duedate = a.frl_target_duedate ∧
         nr.plot_targets = a.plot_targets ∧
         nr.active = a.active ∧
         (keep = true →
            nr.project_notes = a.project_notes ∧
            nr.crl_notes = a.crl_notes ∧ nr.trl_notes = a.trl_notes ∧
            nr.brl_notes = a.brl_notes ∧ nr.iprl_notes = a.iprl_notes ∧
            nr.tmrl_notes = a.tmrl_notes ∧ nr.frl_notes = a.frl_notes) ∧
         (keep = false →
            nr.project_notes = none ∧
            nr.crl_notes = none ∧ nr.trl_notes = none ∧
            nr.brl_notes = none ∧ nr.iprl_notes = none ∧
            nr.tmrl_notes = none ∧ nr.frl_notes = none)) := by
  constructor
  · intro hc
    have hb : (ow || today == a.assessment_date) = true := by
      rcases hc with hc | hc
      · simp [hc]
      · simp [hc]
    simp [IRLAssessment.update, hb]
  · rintro ⟨how, hne⟩
    have hb : (ow || today == a.assessment_date) = false := by
      simp [how, hne]
    simp only [IRLAssessment.update, hb, Bool.false_eq_true, if_false]
    exact ⟨_, rfl, rfl, rfl, rfl, rfl, rfl, rfl, rfl, rfl, rfl, rfl, rfl, rfl,
      rfl, rfl, rfl, rfl, rfl, rfl, rfl, rfl, rfl, rfl, rfl, rfl, rfl, rfl,
      rfl, rfl, rfl, rfl, rfl, rfl,
      fun hk => by simp [hk],
      fun hk => by simp [hk]⟩

/-- Witness for C2: a same-day update rewrites in place, and a later-day
update appends the fresh historical row. -/
theorem update_spec_witness :
    ((exAss.update false false "2026-10-12" exDb1).1.assessments
       = exDb1.assessments.map (fun r => if r.id == exAss.id then exAss else r)) ∧
    (∃ nr,
       (exAss.update false false "2026-10-13" exDb1).1.assessments
         = exDb1.assessments ++ [nr] ∧
       nr.id = exDb1.nextAssId ∧
       nr.project_no = exAss.project_no ∧
       nr.assessment_date = "2026-10-13" ∧
       nr.project_notes = none) :=
  ⟨(update_spec exAss false false "2026-10-12" exDb1).1 (Or.inr rfl),
   by
    rcases (update_spec exAss false false "2026-10-13" exDb1).2
        ⟨rfl, by decide⟩ with
      ⟨nr, h1, h2, h3, -, -, -, h7, hrest⟩
    refine ⟨nr, h1, h2, h3, h7, ?_⟩
    exact (hrest.2.2.2.2.2.2.2.2.2.2.2.2.2.2.2.2.2.2.2.2.2.2.2.2.2.2.2 rfl).1⟩

/-- C6: add_user returns nothing and writes nothing when the username is
taken; otherwise it stores the user with the bcrypt hash of the password
and exactly one paired UserSettings row carrying the documented defaults,
returning the created user. -/
theorem add_user_spec (hashpw : String → String → String) (salt : String)
    (new_user : User) (password : String) (db : DB) :
    ((∃ u ∈ db.users, u.username = new_user.username) →
       add_user hashpw salt new_user password db = (db, none)) ∧
    ((∀ u ∈ db.users, u.username ≠ new_user.username) →
       ∃ stored st,
         (add_user hashpw salt new_user password db).1.users
           = db.users ++ [stored] ∧
         (add_user hashpw salt new_user password db).1.userSettings
           = db.userSettings ++ [st] ∧
         (add_user hashpw salt new_user password db).2 = some stored ∧
         stored.password = some (hashpw password salt) ∧
         stored.username = new_user.username ∧
         stored.actual_name = new_user.actual_name ∧
         stored.rights = new_user.rights ∧
         stored.active = new_user.active ∧
         stored.org_id = new_user.org_id ∧
         stored.fac_id = new_user.fac_id ∧
         stored.dep_id = new_user.dep_id ∧
         st.user_id = stored.user_id ∧
         st.smooth_irl = 1 ∧ st.filter_on_user = 1 ∧ st.remember_project = 1 ∧
         st.ascending_irl = 1 ∧ st.ap_table_view = 0 ∧ st.dark_mode = 1) := by
  constructor
  · intro hdup
    have h : db.users.any (fun u => u.username == new_user.username) = true := by
      rcases hdup with ⟨u, hu, hn⟩
      exact List.any_eq_true.mpr ⟨u, hu, by simp [hn]⟩
    simp [add_user, h]
  · intro hnone
    have h : db.users.any (fun u => u.username == new_user.username) = false := by
      rw [List.any_eq_false]
      intro u hu
      simpa using hnone u hu
    simp only [add_user, h, Bool.false_eq_true, if_false]
    exact ⟨_, _, rfl, rfl, rfl, rfl, rfl, rfl, rfl, rfl, rfl, rfl, rfl, rfl,
      rfl, rfl, rfl, rfl, rfl, rfl⟩

/-- Witness for C6: an empty store accepts the user and pairs it with the
default settings row; a store already holding the username rejects it. -/
theorem add_user_spec_witness :
    (add_user (fun p s => p ++ s) "salt" exUserNoPw "pw" exDbNoPw
       = (exDbNoPw, none)) ∧
    (∃ stored st,
       (add_user (fun p s => p ++ s) "salt" exUserNoPw "pw" exDb0).1.users
         = exDb0.users ++ [stored] ∧
       (add_user (fun p s => p ++ s) "salt" exUserNoPw "pw" exDb0).1.userSettings
         = exDb0.userSettings ++ [st] ∧
       stored.password = some ("pw" ++ "salt") ∧
       st.smooth_irl = 1 ∧ st.dark_mode = 1) := by
  constructor
  · exact (add_user_spec (fun p s => p ++ s) "salt" exUserNoPw "pw" exDbNoPw).1
      ⟨exUserNoPw, by simp [exDbNoPw, exDb0], rfl⟩
  · rcases (add_user_spec (fun p s => p ++ s) "salt" exUserNoPw "pw" exDb0).2
        (by intro u hu; simp [exDb0] at hu) with
      ⟨stored, st, h1, h2, -, h4, -, -, -, -, -, -, -, -, hs, -, -, -, -, hdm⟩
    exact ⟨stored, st, h1, h2, h4, hs, hdm⟩

/-- Counterexample to C7 as stated: for a stored user whose password is
unset (the schema allows NULL until first set), validate_user does not
return "no value" — it dereferences the NULL hash (None.encode) and
raises, modelled as an error result, for every password-check oracle. -/
theorem validate_user_null_password_counterexample :
    validate_user (fun _ _ => true) "alice" "pw" exDbNoPw
      = Except.error "AttributeError: NoneType object has no attribute encode" ∧
    ∀ r : Option User,
      validate_user (fun _ _ => true) "alice" "pw" exDbNoPw ≠ Except.ok r := by
  constructor
  · rfl
  · intro r hr
    rw [show validate_user (fun _ _ => true) "alice" "pw" exDbNoPw
          = Except.error "AttributeError: NoneType object has no attribute encode"
        from rfl] at hr
    exact Except.noConfusion hr

/-- C7 amended: validate_user returns no value when the username does not
exist, decides between the matched user and no value by the bcrypt check
when the matched user has a stored hash, and raises (error result) — not
"no value" — when the matched user has no password set. -/
theorem validate_user_amended (checkpw : String → String → Bool)
    (username password : String) (db : DB) :
    ((db.users.find? (fun v => v.username == username) = none) →
       validate_user checkpw username password db = Except.ok none) ∧
    (∀ u hp, db.users.find? (fun v => v.username == username) = some u →
       u.password = some hp →
       validate_user checkpw username password db
         = (if checkpw password hp then Except.ok (some u) else Except.ok none)) ∧
    (∀ u, db.users.find? (fun v => v.username == username) = some u →
       u.password = none →
       validate_user checkpw username password db
         = Except.error "AttributeError: NoneType object has no attribute encode") := by
  refine ⟨fun hf => ?_, fun u hp hf hpw => ?_, fun u hf hpw => ?_⟩
  · unfold validate_user
    rw [hf]
  · unfold validate_user
    rw [hf]
    simp [hpw]
  · unfold validate_user
    rw [hf]
    simp [hpw]

/-- Witness for the amended C7: an unknown username yields no value; the
known password-less user yields the error. -/
theorem validate_user_amended_witness :
    validate_user (fun _ _ => true) "bob" "pw" exDbNoPw = Except.ok none ∧
    validate_user (fun _ _ => true) "alice" "pw" exDbNoPw
      = Except.error "AttributeError: NoneType object has no attribute encode" :=
  ⟨(validate_user_amended (fun _ _ => true) "bob" "pw" exDbNoPw).1 (by decide),
   (validate_user_amended (fun _ _ => true) "alice" "pw" exDbNoPw).2.2
     exUserNoPw (by decide) rfl⟩

/-- Counterexample to C9 as stated: assessment id 1 has zero matching
action points in the concrete store, yet its empty-table column set is not
the column set of the non-empty case (id 5): the non-empty merge carries
the ActionPoint primary-key column ap_id, while the hard-coded empty
fallback list instead contains a column literally named id. -/
theorem get_action_points_columns_counterexample :
    exDbAp.actionPoints.filter (fun ap => ap.assessment_id == 1) = [] ∧
    exDbAp.actionPoints.filter (fun ap => ap.assessment_id == 5) ≠ [] ∧
    get_action_points_columns 1 none exDbAp
      ≠ get_action_points_columns 5 none exDbAp ∧
    "ap_id" ∈ get_action_points_columns 5 none exDbAp ∧
    "ap_id" ∉ get_action_points_columns 1 none exDbAp ∧
    "id" ∈ get_action_points_columns 1 none exDbAp := by
  refine ⟨rfl, by decide, by decide, by decide, by decide, by decide⟩

/-- C9 amended: for an assessment id with zero matching action points,
get_action_points returns an empty table with the fixed column list that
equals the non-empty case's column list except that the ActionPoint key
column appears under the name id instead of ap_id. -/
theorem get_action_points_columns_amended (irl_ass_id : Nat)
    (it : Option String) (db : DB)
    (h : db.actionPoints.filter (fun ap => ap.assessment_id == irl_ass_id) = []) :
    get_action_points_columns irl_ass_id it db
      = (user_dict_keys ++ action_point_dict_keys ++ ["aps", "user_obj"]).map
          (fun s => if s = "ap_id" then "id" else s) := by
  have hall : ∀ p : ActionPoint → Bool,
      db.actionPoints.filter
        (fun ap => ap.assessment_id == irl_ass_id && p ap) = [] := by
    intro p
    rw [List.eq_nil_iff_forall_not_mem]
    intro ap hap
    rw [List.mem_filter] at hap
    have h1 : (ap.assessment_id == irl_ass_id) = true := by
      have := hap.2
      exact (Bool.and_eq_true ..).mp this |>.1
    have h2 : ap ∈ db.actionPoints.filter (fun x => x.assessment_id == irl_ass_id) :=
      List.mem_filter.mpr ⟨hap.1, h1⟩
    rw [h] at h2
    exact List.not_mem_nil ap h2
  unfold get_action_points_columns
  cases it with
  | none => simp [h]; decide
  | some t => simp [hall]; decide

/-- Witness for the amended C9 at the concrete store: assessment id 1 has
no action points and yields the renamed fixed column list. -/
theorem get_action_points_columns_amended_witness :
    get_action_points_columns 1 none exDbAp
      = (user_dict_keys ++ action_point_dict_keys ++ ["aps", "user_obj"]).map
          (fun s => if s = "ap_id" then "id" else s) :=
  get_action_points_columns_amended 1 none exDbAp rfl

/-- Bridge between the Bool membership test and propositional membership
for key lists. -/
theorem contains_iff_mem {l : List Nat} {x : Nat} : l.contains x = true ↔ x ∈ l :=
  List.elem_iff

/-- One delete_aps_step iteration, under unique action-point keys, removes
exactly the rows of the processed assessment and always passes its count
check. -/
theorem delete_aps_step_nodup (l : List ActionPoint) (b : Bool) (aid : Nat)
    (h : (l.map (fun ap => ap.ap_id)).Nodup) :
    delete_aps_step (l, b) aid
      = (l.filter (fun ap => !(ap.assessment_id == aid)), b) := by
  have key : ∀ ap ∈ l,
      (((l.filter (fun x => x.assessment_id == aid)).map
          (fun x => x.ap_id)).contains ap.ap_id)
        = (ap.assessment_id == aid) := by
    intro ap hap
    by_cases hm : ap.assessment_id = aid
    · have hmem : ap.ap_id ∈ (l.filter (fun x => x.assessment_id == aid)).map
          (fun x => x.ap_id) :=
        List.mem_map.mpr ⟨ap, List.mem_filter.mpr ⟨hap, by simp [hm]⟩, rfl⟩
      rw [contains_iff_mem.mpr hmem]
      simp [hm]
    · have hno : ¬ ap.ap_id ∈ (l.filter (fun x => x.assessment_id == aid)).map
          (fun x => x.ap_id) := by
        intro hmem
        rcases List.mem_map.mp hmem with ⟨x, hx, hxid⟩
        have hxl : x ∈ l := (List.mem_filter.mp hx).1
        have hxa : (x.assessment_id == aid) = true := (List.mem_filter.mp hx).2
        have hxap : x = ap := List.inj_on_of_nodup_map h hxl hap hxid
        rw [hxap] at hxa
        exact hm (by simpa using hxa)
      have hc : ((l.filter (fun x => x.assessment_id == aid)).map
          (fun x => x.ap_id)).contains ap.ap_id = false := by
        rw [Bool.eq_false_iff]
        intro hcc
        exact hno (contains_iff_mem.mp hcc)
      rw [hc]
      simp [hm]
  unfold delete_aps_step
  refine Prod.ext ?_ ?_
  · refine List.filter_congr ?_
    intro x hx
    rw [key x hx]
  · have hcount : l.countP (fun ap =>
        ((l.filter (fun x => x.assessment_id == aid)).map
          (fun x => x.ap_id)).contains ap.ap_id)
        = l.countP (fun ap => ap.assessment_id == aid) :=
      List.countP_congr (fun x hx => by rw [key x hx])
    have hlen : ((l.filter (fun x => x.assessment_id == aid)).map
        (fun x => x.ap_id)).length
        = l.countP (fun ap => ap.assessment_id == aid) := by
      rw [List.length_map, List.countP_eq_length_filter]
    simp only [hcount, hlen, beq_self_eq_true, Bool.and_true]

/-- The delete_assessments loop over all given ids, under unique
action-point keys, removes exactly the action points of those assessments
and keeps the running flag true. -/
theorem foldl_delete_aps (ids : List Nat) (l : List ActionPoint)
    (h : (l.map (fun ap => ap.ap_id)).Nodup) :
    ids.foldl delete_aps_step (l, true)
      = (l.filter (fun ap => !(ids.contains ap.assessment_id)), true) := by
  induction ids generalizing l with
  | nil => simp
  | cons aid rest ih =>
    rw [List.foldl_cons, delete_aps_step_nodup l true aid h]
    have h2 : ((l.filter (fun ap => !(ap.assessment_id == aid))).map
        (fun ap => ap.ap_id)).Nodup :=
      List.Nodup.sublist ((List.filter_sublist l).map (fun ap => ap.ap_id)) h
    rw [ih _ h2]
    refine Prod.ext ?_ rfl
    rw [List.filter_filter]
    refine List.filter_congr ?_
    intro x hx
    rw [List.contains_cons]
    cases hxa : x.assessment_id == aid <;>
      cases hxr : rest.contains x.assessment_id <;> simp [hxa, hxr]

/-- C5: delete_assessments removes every action point whose assessment_id
is among the given assessments' ids, then removes those assessment rows,
in one commit; the returned flag is true exactly when the deleted
assessment-row count matches the requested count, and the removals stand
in the returned store regardless of the flag (no rollback). -/
theorem delete_assessments_spec (irl_asses : List IRLAssessment) (db : DB)
    (h : (db.actionPoints.map (fun ap => ap.ap_id)).Nodup) :
    (delete_assessments irl_asses db).1.actionPoints
      = db.actionPoints.filter
          (fun ap => !((irl_asses.map (fun a => a.id)).contains ap.assessment_id)) ∧
    (delete_assessments irl_asses db).1.assessments
      = db.assessments.filter
          (fun a => !((irl_asses.map (fun r => r.id)).contains a.id)) ∧
    ((delete_assessments irl_asses db).2 = true ↔
       db.assessments.countP
           (fun a => (irl_asses.map (fun r => r.id)).contains a.id)
         = irl_asses.length) := by
  simp only [delete_assessments]
  rw [foldl_delete_aps _ _ h]
  refine ⟨rfl, by trivial, ?_⟩
  simp [List.length_map]

/-- Witness for C5: deleting the stored assessment together with a stale
object removes the row and its action point, and the count mismatch makes
the call report failure while the removals persist. -/
theorem delete_assessments_spec_witness :
    (delete_assessments [exAss, exAssStale] exDbDel).1.actionPoints
      = exDbDel.actionPoints.filter
          (fun ap => !((([exAss, exAssStale]).map (fun a => a.id)).contains
              ap.assessment_id)) ∧
    (delete_assessments [exAss, exAssStale] exDbDel).1.assessments
      = exDbDel.assessments.filter
          (fun a => !((([exAss, exAssStale]).map (fun r => r.id)).contains a.id)) ∧
    ((delete_assessments [exAss, exAssStale] exDbDel).2 = true ↔
       exDbDel.assessments.countP
           (fun a => (([exAss, exAssStale]).map (fun r => r.id)).contains a.id)
         = ([exAss, exAssStale] : List IRLAssessment).length) :=
  delete_assessments_spec [exAss, exAssStale] exDbDel (by decide)

/-- Swapped-argument form of natural-number key equality tests. -/
theorem beq_comm_nat (a b : Nat) : (a == b) = (b == a) := by
  rcases Decidable.em (a = b) with h | h
  · subst h; rfl
  · simp [h, Ne.symm h]

/-- dedupNos commutes with filtering the key list. -/
theorem dedupNos_filter (P : Int → Bool) (l : List Int) :
    dedupNos (l.filter P) = (dedupNos l).filter P := by
  induction l using dedupNos.induct with
  | case1 => simp [dedupNos]
  | case2 n ns ih =>
    rw [dedupNos]
    cases hP : P n with
    | true =>
      rw [List.filter_cons, hP]
      simp only [if_true]
      rw [dedupNos, List.filter_cons, hP]
      simp only [if_true]
      rw [List.filter_comm, ih]
    | false =>
      rw [List.filter_cons, hP]
      simp only [Bool.false_eq_true, if_false]
      rw [List.filter_cons, hP]
      simp only [Bool.false_eq_true, if_false]
      rw [← ih, List.filter_comm]
      have hid : (ns.filter P).filter (fun m => !(m == n)) = ns.filter P := by
        rw [List.filter_eq_self]
        intro m hm
        have hPm : P m = true := (List.mem_filter.mp hm).2
        have hne : m ≠ n := by
          intro he
          rw [he, hP] at hPm
          exact Bool.false_ne_true hPm
        simp [hne]
      rw [hid]

/-- The max-date representative of a group belongs to the group. -/
theorem maxByDate_mem {l : List IRLAssessment} {a : IRLAssessment}
    (h : maxByDate l = some a) : a ∈ l := by
  induction l with
  | nil => exact absurd h (by simp [maxByDate])
  | cons x rest ih =>
    rw [maxByDate] at h
    cases hm : maxByDate rest with
    | none =>
      simp only [hm, Option.some.injEq] at h
      rw [← h]
      exact List.mem_cons_self x rest
    | some b =>
      simp only [hm] at h
      by_cases hle : b.assessment_date ≤ x.assessment_date
      · rw [if_pos hle] at h
        injection h with h2
        rw [← h2]
        exact List.mem_cons_self x rest
      · rw [if_neg hle] at h
        injection h with h2
        rw [h2] at hm
        exact List.mem_cons_of_mem x (ih hm)

/-- Filtering the produced rows by a key property equals filtering the key
list first, whenever the producer's output determines the property. -/
theorem filterMap_filter_exchange {g : Int → Option IRLAssessment}
    {p : Int → Bool} {q : IRLAssessment → Bool}
    (hg : ∀ pn a, g pn = some a → q a = p pn) :
    ∀ l : List Int, (l.filterMap g).filter q = (l.filter p).filterMap g := by
  intro l
  induction l with
  | nil => rfl
  | cons pn rest ih =>
    cases hgp : g pn with
    | none =>
      cases hp : p pn <;>
        simp [List.filterMap_cons, List.filter_cons, hgp, hp, ih]
    | some a =>
      have hqa : q a = p pn := hg pn a hgp
      cases hp : p pn <;>
        simp [List.filterMap_cons, List.filter_cons, hgp, hqa, hp, ih]

/-- Grouping to the latest row per project_no commutes with restricting to
a predicate on project_no. -/
theorem group_latest_filter_pn (Q : Int → Bool) (rows : List IRLAssessment) :
    group_latest (rows.filter (fun a => Q a.project_no))
      = (group_latest rows).filter (fun a => Q a.project_no) := by
  unfold group_latest
  have hkeys : (rows.filter (fun a => Q a.project_no)).map (fun a => a.project_no)
      = (rows.map (fun a => a.project_no)).filter Q := by
    rw [List.filter_map]
    rfl
  rw [hkeys, dedupNos_filter]
  have hg : ∀ pn0 a,
      maxByDate (rows.filter (fun r => r.project_no == pn0)) = some a →
      (fun r : IRLAssessment => Q r.project_no) a = Q pn0 := by
    intro pn0 a ha
    have hmem := maxByDate_mem ha
    have h2 : a.project_no = pn0 := by
      simpa using (List.mem_filter.mp hmem).2
    simp [h2]
  rw [filterMap_filter_exchange hg]
  refine List.filterMap_congr ?_
  intro pn0 hpn0
  have hQ : Q pn0 = true := (List.mem_filter.mp hpn0).2
  rw [List.filter_comm]
  congr 1
  rw [List.filter_eq_self]
  intro r hr
  have h2 : r.project_no = pn0 := by
    simpa using (List.mem_filter.mp hr).2
  simp [h2, hQ]

/-- The joined team query of the rights ≤ 3 branch equals restricting the
role-agnostic grouped list to projects where the user is an active team
member. -/
theorem team_group_eq (db : DB) (uid : Nat) (act : Int) :
    group_latest (db.assessments.filter (fun a =>
        a.active == act && team_ok db uid a.project_no))
      = (group_latest (db.assessments.filter (fun a => a.active == act))).filter
          (fun p => team_ok db uid p.project_no) := by
  rw [← group_latest_filter_pn (fun pn => team_ok db uid pn)
        (db.assessments.filter (fun a => a.active == act))]
  congr 1
  rw [List.filter_filter]
  refine List.filter_congr ?_
  intro a ha
  cases h1 : a.active == act <;>
    cases h2 : team_ok db uid a.project_no <;> simp [h1, h2]

/-- Membership in the mapped-id list of a user filter is the existence of
a matching user. -/
theorem filter_map_contains_any (l : List User) (q : User → Bool) (x : Nat) :
    ((l.filter q).map (fun u => u.user_id)).contains x
      = l.any (fun u => q u && u.user_id == x) := by
  induction l with
  | nil => rfl
  | cons u us ih =>
    cases hq : q u with
    | false =>
      rw [List.filter_cons, hq]
      simp only [Bool.false_eq_true, if_false]
      rw [ih, List.any_cons, hq]
      simp
    | true =>
      rw [List.filter_cons, hq]
      simp only [if_true]
      rw [List.map_cons, List.contains_cons, ih, List.any_cons, hq,
          beq_comm_nat x u.user_id]
      simp

/-- C1: get_projects first fetches, per project_no, the single assessment
row with the maximum assessment_date among rows whose active flag matches,
and then narrows by role: rights 9 with filt keeps only projects the user
leads; rights 8 keeps projects the user leads (filt) or projects led by
some active user of the same organisation (not filt); rights at most 3
keeps projects on which the user is an active ProjectTeam member, and
additionally the leader when filt; any other rights value returns the
unfiltered grouped list. -/
theorem get_projects_matches_claim (user : User) (filt active : Bool) (db : DB) :
    get_projects user filt active db = get_projects_claimed user filt active db := by
  simp only [get_projects, get_projects_claimed]
  by_cases h9 : (user.rights == 9 && filt) = true
  · rw [if_pos h9, if_pos h9]
  · rw [if_neg h9, if_neg h9]
    by_cases h8 : (user.rights == 8) = true
    · rw [if_pos h8, if_pos h8]
      by_cases hf : filt = true
      · rw [if_pos hf, if_pos hf]
      · rw [if_neg hf, if_neg hf]
        refine List.filter_congr ?_
        intro p hp
        simp only [get_users]
        exact filter_map_contains_any _ _ _
    · rw [if_neg h8, if_neg h8]
      by_cases h3 : user.rights ≤ 3
      · rw [if_pos h3, if_pos h3, team_group_eq]
      · rw [if_neg h3, if_neg h3]

end RnIrl
